import Mathlib

/-!
Shallow embedding of the microxdg XDG Base Directory resolver
(src/src/lib.rs, src/src/error.rs, src/src/app.rs).

Paths are modelled as POSIX path strings, the process environment as an
association list from variable names to values (valid unicode text or raw
non-unicode bytes), and the filesystem as the list of existing regular files.
Helpers that src/src/app.rs calls but that are absent from src are modelled
from the spec and marked as such in their doc comments.
-/

set_option autoImplicit false

/-- Paths are modelled as POSIX path strings (Rust `PathBuf`). -/
abbrev PathBuf := String

/-- Rust `Path::is_relative` on POSIX: a path is relative iff it has no root,
i.e. it does not start with a slash; the empty path is relative. -/
def isRelativePath (path : PathBuf) : Bool :=
  match path.data with
  | '/' :: _ => false
  | _ => true

/-- Whether a path's final character is a separator (used by `PathBuf::push`
to decide if a separator must be inserted). -/
def lastCharIsSlash (s : String) : Bool :=
  match s.data.getLast? with
  | some '/' => true
  | _ => false

/-- Rust `PathBuf::push` on POSIX: an absolute argument replaces the whole
path; otherwise a separator is inserted unless the receiver is empty or
already ends with one. `Path::join` clones and pushes. -/
def pushPath (self : PathBuf) (path : PathBuf) : PathBuf :=
  if !(isRelativePath path) then path
  else if self = "" then path
  else if lastCharIsSlash self then self ++ path
  else self ++ "/" ++ path

/-- Helper for `splitOnChar`: structural recursion over the characters with
an accumulator for the current segment. -/
def splitOnCharAux (c : Char) : List Char → List Char → List (List Char)
  | [], acc => [acc.reverse]
  | x :: xs, acc =>
    if x = c then acc.reverse :: splitOnCharAux c xs []
    else splitOnCharAux c xs (x :: acc)

/-- Rust `str::split(c)`: split on every occurrence of a character, keeping
empty segments (a value with n separators yields n + 1 segments). -/
def splitOnChar (c : Char) (s : String) : List String :=
  (splitOnCharAux c s.data []).map String.mk

/-- The value an environment variable is set to: either valid unicode text or
a raw byte string that cannot be decoded as unicode (a non-UTF-8 `OsString`,
given by its bytes). -/
inductive EnvValue where
  | str (s : String)
  | nonUnicode (bytes : List Nat)
deriving DecidableEq

/-- Rust `std::env::VarError`. -/
inductive VarError where
  | notPresent
  | notUnicode (bytes : List Nat)
deriving DecidableEq

/-- A process environment: an association list from variable names to values. -/
structure Env where
  vars : List (String × EnvValue)
deriving DecidableEq

/-- Raw lookup of an environment variable (first matching entry). -/
def Env.lookupVar (env : Env) (key : String) : Option EnvValue :=
  (env.vars.find? (fun entry => entry.fst == key)).map (fun entry => entry.snd)

/-- Rust `std::env::var`: `Ok` for a set, valid-unicode value (possibly
empty), `Err(NotPresent)` when unset, `Err(NotUnicode)` when set to invalid
unicode. -/
def Env.var (env : Env) (key : String) : Except VarError String :=
  match env.lookupVar key with
  | some (EnvValue.str s) => Except.ok s
  | some (EnvValue.nonUnicode bytes) => Except.error (VarError.notUnicode bytes)
  | none => Except.error VarError.notPresent

/-- Decidable equality for `Except`, used to evaluate results on concrete
inputs. -/
instance {ε α : Type} [DecidableEq ε] [DecidableEq α] : DecidableEq (Except ε α) :=
  fun a b =>
    match a, b with
    | Except.ok x, Except.ok y =>
      if h : x = y then isTrue (by rw [h])
      else isFalse (fun hc => h (Except.ok.inj hc))
    | Except.error x, Except.error y =>
      if h : x = y then isTrue (by rw [h])
      else isFalse (fun hc => h (Except.error.inj hc))
    | Except.ok _, Except.error _ => isFalse (fun hc => Except.noConfusion hc)
    | Except.error _, Except.ok _ => isFalse (fun hc => Except.noConfusion hc)

/-- `XdgDir` (src/src/lib.rs): user-specific XDG base directory kinds. -/
inductive XdgDir where
  | Cache
  | Config
  | Data
  | State
deriving DecidableEq

/-- `XdgDir::env_var` (src/src/lib.rs). -/
def XdgDir.env_var : XdgDir → String
  | .Cache => "XDG_CACHE_HOME"
  | .Config => "XDG_CONFIG_HOME"
  | .Data => "XDG_DATA_HOME"
  | .State => "XDG_STATE_HOME"

/-- `XdgDir::fallback` (src/src/lib.rs). -/
def XdgDir.fallback : XdgDir → String
  | .Cache => ".cache"
  | .Config => ".config"
  | .Data => ".local/share"
  | .State => ".local/state"

/-- `XdgSysDirs` (src/src/lib.rs): system-wide XDG directory kinds. -/
inductive XdgSysDirs where
  | Config
  | Data
deriving DecidableEq

/-- `XdgSysDirs::env_var` (src/src/lib.rs). -/
def XdgSysDirs.env_var : XdgSysDirs → String
  | .Config => "XDG_CONFIG_DIRS"
  | .Data => "XDG_DATA_DIRS"

/-- `XdgSysDirs::fallback` (src/src/lib.rs); `XdgSysDirs::from_paths` maps
`PathBuf::from` over string literals, which is the identity in this model. -/
def XdgSysDirs.fallback : XdgSysDirs → List PathBuf
  | .Config => ["/etc/xdg"]
  | .Data => ["/usr/local/share", "/usr/share"]

/-- `XdgError` (src/src/error.rs). -/
inductive XdgError where
  | homeNotFound
  | relativePath (env_var_key : String) (path : PathBuf)
  | invalidUnicode (env_var_key : String) (env_var_val : List Nat)
deriving DecidableEq

/-- `Xdg` (src/src/lib.rs): holds the home directory resolved once at
construction. -/
structure Xdg where
  home : PathBuf
deriving DecidableEq

/-- `Xdg::new_from_string` (src/src/lib.rs). -/
def Xdg.new_from_string (home : String) : Xdg :=
  { home := home }

/-- `Xdg::new` (src/src/lib.rs): the value of `HOME` verbatim when readable as
unicode, else `/home/<USER>`, else `HomeNotFound`. -/
def Xdg.new (env : Env) : Except XdgError Xdg :=
  match env.var "HOME" with
  | Except.ok home => Except.ok (Xdg.new_from_string home)
  | Except.error _ =>
    match env.var "USER" with
    | Except.ok user => Except.ok (Xdg.new_from_string ("/home/" ++ user))
    | Except.error _ => Except.error XdgError.homeNotFound

/-- `Xdg::validate_path` (src/src/lib.rs). -/
def Xdg.validate_path (env_var_key : String) (env_var_val : String) :
    Except XdgError PathBuf :=
  if isRelativePath env_var_val then
    Except.error (XdgError.relativePath env_var_key env_var_val)
  else
    Except.ok env_var_val

/-- `Xdg::get_path` (src/src/lib.rs): resolution of one user-specific base
directory; unset or empty variable falls back to `home.join(fallback)`. -/
def Xdg.get_path (xdg : Xdg) (env : Env) (dir : XdgDir) : Except XdgError PathBuf :=
  match env.var dir.env_var with
  | Except.ok env_var_val =>
    if env_var_val ≠ "" then
      Xdg.validate_path dir.env_var env_var_val
    else
      Except.ok (pushPath xdg.home dir.fallback)
  | Except.error (VarError.notUnicode env_var_val) =>
    Except.error (XdgError.invalidUnicode dir.env_var env_var_val)
  | Except.error VarError.notPresent =>
    Except.ok (pushPath xdg.home dir.fallback)

/-- `Xdg::runtime` (src/src/lib.rs): no fallback; unset or empty yields
`none`. -/
def Xdg.runtime (_xdg : Xdg) (env : Env) : Except XdgError (Option PathBuf) :=
  match env.var "XDG_RUNTIME_DIR" with
  | Except.ok env_var_val =>
    if env_var_val ≠ "" then
      (Xdg.validate_path "XDG_RUNTIME_DIR" env_var_val).map some
    else
      Except.ok none
  | Except.error (VarError.notUnicode env_var_val) =>
    Except.error (XdgError.invalidUnicode "XDG_RUNTIME_DIR" env_var_val)
  | Except.error VarError.notPresent => Except.ok none

/-- `Xdg::exec` (src/src/lib.rs). -/
def Xdg.exec (xdg : Xdg) : PathBuf :=
  pushPath xdg.home ".local/bin"

/-- Rust `collect::<Result<Vec<_>, _>>`: collect a sequence of results,
stopping at and returning the first error. -/
def collectExcept : List (Except XdgError PathBuf) → Except XdgError (List PathBuf)
  | [] => Except.ok []
  | r :: rs =>
    match r with
    | Except.error e => Except.error e
    | Except.ok p =>
      match collectExcept rs with
      | Except.error e => Except.error e
      | Except.ok ps => Except.ok (p :: ps)

/-- `Xdg::get_sys_paths` (src/src/lib.rs): resolution of a system-wide
preference list (the unused `&self` receiver is dropped); a set, non-empty
value is split on colons and each segment validated. -/
def Xdg.get_sys_paths (env : Env) (dirs : XdgSysDirs) : Except XdgError (List PathBuf) :=
  match env.var dirs.env_var with
  | Except.ok env_var_val =>
    if env_var_val ≠ "" then
      collectExcept ((splitOnChar ':' env_var_val).map (Xdg.validate_path dirs.env_var))
    else
      Except.ok dirs.fallback
  | Except.error (VarError.notUnicode env_var_val) =>
    Except.error (XdgError.invalidUnicode dirs.env_var env_var_val)
  | Except.error VarError.notPresent => Except.ok dirs.fallback

/-- Modelled from the spec: `Xdg::get_env_var`, called by src/src/app.rs but
missing from src. Spec section 4.2 steps 2 and 3: an absent or empty variable
yields no value (the fallback applies), invalid unicode yields an
`InvalidUnicode` error, otherwise the text value is returned. -/
def Xdg.get_env_var (env : Env) (env_var_key : String) :
    Except XdgError (Option String) :=
  match env.var env_var_key with
  | Except.ok env_var_val =>
    if env_var_val ≠ "" then Except.ok (some env_var_val) else Except.ok none
  | Except.error (VarError.notUnicode env_var_val) =>
    Except.error (XdgError.invalidUnicode env_var_key env_var_val)
  | Except.error VarError.notPresent => Except.ok none

/-- Modelled from the spec: the `append` method of the `Append` trait (named
`appendPath` here since `Append` is taken in Lean), used by
src/src/app.rs but missing from src. Spec section 4.4: append a segment as
the last path component, i.e. `PathBuf::push`. -/
def appendPath (path : PathBuf) (seg : String) : PathBuf :=
  pushPath path seg

/-- Modelled from the spec: `Xdg::iter_sys_dir_paths`, called by
src/src/app.rs but missing from src. Spec section 4.3 step 4: split the value
on colons and validate each segment as an absolute path, in order. -/
def Xdg.iter_sys_dir_paths (env_var_key : String) (env_var_val : String) :
    List (Except XdgError PathBuf) :=
  (splitOnChar ':' env_var_val).map (Xdg.validate_path env_var_key)

/-- Modelled from the spec: `Xdg::get_dir_path`, called by src/src/app.rs but
missing from src; spec section 4.2 describes the same single-directory
resolution implemented by `Xdg::get_path` in src/src/lib.rs. -/
def Xdg.get_dir_path (xdg : Xdg) (env : Env) (dir : XdgDir) :
    Except XdgError PathBuf :=
  Xdg.get_path xdg env dir

/-- Modelled from the spec: `XdgDir::to_sys`, called by src/src/app.rs but
missing from src. Spec section 4.5: only Config and Data have system-wide
counterparts; Cache and State have none. -/
def XdgDir.to_sys : XdgDir → Option XdgSysDirs
  | .Config => some XdgSysDirs.Config
  | .Data => some XdgSysDirs.Data
  | .Cache => none
  | .State => none

/-- `XdgApp` (src/src/app.rs): an `Xdg` instance plus the application name. -/
structure XdgApp where
  xdg : Xdg
  name : String
deriving DecidableEq

/-- `XdgApp::get_app_dir_path` (src/src/app.rs). -/
def XdgApp.get_app_dir_path (app : XdgApp) (env : Env) (dir : XdgDir) :
    Except XdgError PathBuf :=
  (Xdg.get_dir_path app.xdg env dir).map (fun path => appendPath path app.name)

/-- `XdgApp::get_app_sys_dir_paths` (src/src/app.rs). -/
def XdgApp.get_app_sys_dir_paths (app : XdgApp) (env : Env) (dirs : XdgSysDirs) :
    Except XdgError (List PathBuf) :=
  match Xdg.get_env_var env dirs.env_var with
  | Except.error e => Except.error e
  | Except.ok (some env_var_val) =>
    collectExcept ((Xdg.iter_sys_dir_paths dirs.env_var env_var_val).map
      (fun result => result.map (fun path => appendPath path app.name)))
  | Except.ok none =>
    Except.ok (dirs.fallback.map (fun path => appendPath path app.name))

/-- Filesystem model: the list of paths that exist as regular files;
Rust `Path::is_file` is membership. -/
def isFile (fs : List PathBuf) (path : PathBuf) : Bool :=
  fs.contains path

/-- Rust `Result::is_ok_and`, specialised to paths. -/
def exceptIsOkAnd (p : PathBuf → Bool) : Except XdgError PathBuf → Bool
  | Except.ok path => p path
  | Except.error _ => false

/-- Rust `Option::transpose` on an optional result. -/
def optionExceptTranspose :
    Option (Except XdgError PathBuf) → Except XdgError (Option PathBuf)
  | none => Except.ok none
  | some (Except.ok path) => Except.ok (some path)
  | some (Except.error e) => Except.error e

/-- `XdgApp::search_app_usr_file` (src/src/app.rs). -/
def XdgApp.search_app_usr_file (app : XdgApp) (env : Env) (fs : List PathBuf)
    (dir : XdgDir) (file : String) : Except XdgError (Option PathBuf) :=
  (Xdg.get_dir_path app.xdg env dir).map (fun path =>
    let path1 := pushPath path app.name
    let path2 := pushPath path1 file
    if isFile fs path2 then some path2 else none)

/-- `XdgApp::search_app_sys_file` (src/src/app.rs): scan the mapped candidate
results with `find` and `transpose` the first match. -/
def XdgApp.search_app_sys_file (app : XdgApp) (env : Env) (fs : List PathBuf)
    (dirs : XdgSysDirs) (file : String) : Except XdgError (Option PathBuf) :=
  match Xdg.get_env_var env dirs.env_var with
  | Except.error e => Except.error e
  | Except.ok (some env_var_val) =>
    optionExceptTranspose
      (((Xdg.iter_sys_dir_paths dirs.env_var env_var_val).map
        (fun result => result.map
          (fun path => appendPath (appendPath path app.name) file))).find?
        (exceptIsOkAnd (isFile fs)))
  | Except.ok none =>
    Except.ok ((dirs.fallback.map
      (fun path => appendPath (appendPath path app.name) file)).find?
      (fun path => isFile fs path))

/-- `XdgApp::search_app_file` (src/src/app.rs): user-specific directory first,
then the system-wide preference list when the kind has one. -/
def XdgApp.search_app_file (app : XdgApp) (env : Env) (fs : List PathBuf)
    (dir : XdgDir) (file : String) : Except XdgError (Option PathBuf) :=
  match XdgApp.search_app_usr_file app env fs dir file with
  | Except.error e => Except.error e
  | Except.ok (some path) => Except.ok (some path)
  | Except.ok none =>
    match dir.to_sys with
    | some sys_dirs =>
      match XdgApp.search_app_sys_file app env fs sys_dirs file with
      | Except.error e => Except.error e
      | Except.ok (some path) => Except.ok (some path)
      | Except.ok none => Except.ok none
    | none => Except.ok none

/-! Helper lemmas shared by the claim theorems. -/

theorem collectExcept_map_validate_ok (key : String) (segs : List String)
    (h : ∀ s ∈ segs, isRelativePath s = false) :
    collectExcept (segs.map (Xdg.validate_path key)) = Except.ok segs := by
  induction segs with
  | nil => rfl
  | cons t ts ih =>
    have ht : isRelativePath t = false := h t (List.mem_cons_self t ts)
    have hts : ∀ s ∈ ts, isRelativePath s = false :=
      fun s hs => h s (List.mem_cons_of_mem t hs)
    simp [collectExcept, Xdg.validate_path, ht, ih hts]

theorem collectExcept_map_validate_err (key : String) (segs : List String) (s : String)
    (h : segs.find? (fun seg => isRelativePath seg) = some s) :
    collectExcept (segs.map (Xdg.validate_path key)) =
      Except.error (XdgError.relativePath key s) := by
  induction segs with
  | nil => simp at h
  | cons t ts ih =>
    cases ht : isRelativePath t with
    | true =>
      rw [List.find?_cons_of_pos _ ht] at h
      cases h
      simp [collectExcept, Xdg.validate_path, ht]
    | false =>
      rw [List.find?_cons_of_neg _ (by simp [ht])] at h
      simp [collectExcept, Xdg.validate_path, ht, ih h]

theorem collectExcept_map_validate_inv (key : String) (segs : List String)
    (l : List PathBuf)
    (h : collectExcept (segs.map (Xdg.validate_path key)) = Except.ok l) :
    l = segs ∧ ∀ s ∈ segs, isRelativePath s = false := by
  induction segs generalizing l with
  | nil =>
    simp [collectExcept] at h
    subst h
    exact ⟨rfl, by simp⟩
  | cons t ts ih =>
    cases ht : isRelativePath t with
    | true => simp [collectExcept, Xdg.validate_path, ht] at h
    | false =>
      cases hc : collectExcept (ts.map (Xdg.validate_path key)) with
      | error e => simp [collectExcept, Xdg.validate_path, ht, hc] at h
      | ok ps =>
        obtain ⟨h1, h2⟩ := ih ps hc
        subst h1
        simp [collectExcept, Xdg.validate_path, ht, hc] at h
        refine ⟨h.symm, ?_⟩
        intro s hs
        rcases List.mem_cons.mp hs with rfl | hs
        · exact ht
        · exact h2 s hs

theorem collectExcept_map_map (f : PathBuf → PathBuf)
    (rs : List (Except XdgError PathBuf)) :
    collectExcept (rs.map (fun r => r.map f)) =
      (collectExcept rs).map (List.map f) := by
  induction rs with
  | nil => rfl
  | cons r rs ih =>
    cases r with
    | error e => rfl
    | ok p =>
      show (match collectExcept (rs.map (fun r => r.map f)) with
            | Except.error e => Except.error e
            | Except.ok ps => Except.ok (f p :: ps)) =
          Except.map (List.map f)
            (match collectExcept rs with
             | Except.error e => Except.error e
             | Except.ok ps => Except.ok (p :: ps))
      rw [ih]
      cases collectExcept rs with
      | error e => rfl
      | ok ps => rfl

theorem searchScan (key : String) (fs : List PathBuf) (f : PathBuf → PathBuf)
    (segs : List String) (h : ∀ s ∈ segs, isRelativePath s = false) :
    optionExceptTranspose
      (((segs.map (Xdg.validate_path key)).map (fun r => r.map f)).find?
        (exceptIsOkAnd (isFile fs)))
    = Except.ok ((segs.map f).find? (fun p => isFile fs p)) := by
  induction segs with
  | nil => rfl
  | cons t ts ih =>
    have ht : isRelativePath t = false := h t (List.mem_cons_self t ts)
    have hts : ∀ s ∈ ts, isRelativePath s = false :=
      fun s hs => h s (List.mem_cons_of_mem t hs)
    cases hf : isFile fs (f t) with
    | true =>
      simp [Xdg.validate_path, ht, Except.map, List.find?_cons, exceptIsOkAnd, hf,
        optionExceptTranspose]
    | false =>
      simpa [Xdg.validate_path, ht, Except.map, List.find?_cons, exceptIsOkAnd, hf]
        using ih hts

/-! Claim theorems. -/

/-- C1: for every directory kind in Cache, Config, Data, State, if the kind's
environment variable is unset, or set but empty, resolving the kind succeeds
and returns exactly the resolver's home directory joined with the kind's fixed
fallback suffix: `.cache`, `.config`, `.local/share`, `.local/state`. -/
theorem get_path_fallback_when_unset_or_empty (xdg : Xdg) (env : Env) (dir : XdgDir)
    (h : env.var dir.env_var = Except.error VarError.notPresent ∨
         env.var dir.env_var = Except.ok "") :
    Xdg.get_path xdg env dir =
      Except.ok (pushPath xdg.home
        (match dir with
         | XdgDir.Cache => ".cache"
         | XdgDir.Config => ".config"
         | XdgDir.Data => ".local/share"
         | XdgDir.State => ".local/state")) := by
  cases dir <;> simp only [XdgDir.env_var] at h <;> rcases h with h | h <;>
    simp [Xdg.get_path, XdgDir.env_var, XdgDir.fallback, h]

/-- Witness for C1: with `XDG_CONFIG_HOME` set to the empty value, resolving
Config yields the home joined with `.config`. -/
theorem get_path_fallback_when_unset_or_empty_witness :
    (Env.var ⟨[("XDG_CONFIG_HOME", EnvValue.str "")]⟩ XdgDir.Config.env_var =
        Except.error VarError.notPresent ∨
      Env.var ⟨[("XDG_CONFIG_HOME", EnvValue.str "")]⟩ XdgDir.Config.env_var =
        Except.ok "") ∧
    Xdg.get_path ⟨"/home/alice"⟩ ⟨[("XDG_CONFIG_HOME", EnvValue.str "")]⟩ XdgDir.Config =
      Except.ok "/home/alice/.config" :=
  ⟨Or.inr (by decide),
    (get_path_fallback_when_unset_or_empty ⟨"/home/alice"⟩
      ⟨[("XDG_CONFIG_HOME", EnvValue.str "")]⟩ XdgDir.Config (Or.inr (by decide))).trans
      (by decide)⟩

/-- C2: for every system directory kind in Config, Data, an unset or empty
variable resolves to exactly the fixed fallback list in declared order, and a
set, non-empty, valid-unicode value all of whose colon-separated segments are
absolute resolves to exactly the split segments in order, duplicates kept and
nothing filtered. -/
theorem get_sys_paths_fallback_and_split (env : Env) (dirs : XdgSysDirs) :
    ((env.var dirs.env_var = Except.error VarError.notPresent ∨
        env.var dirs.env_var = Except.ok "") →
      Xdg.get_sys_paths env dirs =
        Except.ok (match dirs with
          | XdgSysDirs.Config => ["/etc/xdg"]
          | XdgSysDirs.Data => ["/usr/local/share", "/usr/share"])) ∧
    (∀ val : String, env.var dirs.env_var = Except.ok val → val ≠ "" →
      (∀ s ∈ splitOnChar ':' val, isRelativePath s = false) →
      Xdg.get_sys_paths env dirs = Except.ok (splitOnChar ':' val)) := by
  constructor
  · intro h
    cases dirs <;> simp only [XdgSysDirs.env_var] at h <;> rcases h with h | h <;>
      simp [Xdg.get_sys_paths, XdgSysDirs.env_var, XdgSysDirs.fallback, h]
  · intro val hval hne habs
    simp [Xdg.get_sys_paths, hval, hne, collectExcept_map_validate_ok _ _ habs]

/-- Witness for C2: `XDG_DATA_DIRS` unset yields the Data fallback list, and
`XDG_CONFIG_DIRS` set to a duplicate-containing list yields the split. -/
theorem get_sys_paths_fallback_and_split_witness :
    Xdg.get_sys_paths ⟨[]⟩ XdgSysDirs.Data =
      Except.ok ["/usr/local/share", "/usr/share"] ∧
    Xdg.get_sys_paths ⟨[("XDG_CONFIG_DIRS", EnvValue.str "/a:/b:/a")]⟩ XdgSysDirs.Config =
      Except.ok ["/a", "/b", "/a"] :=
  ⟨((get_sys_paths_fallback_and_split ⟨[]⟩ XdgSysDirs.Data).1
      (Or.inl (by decide))).trans (by decide),
    ((get_sys_paths_fallback_and_split ⟨[("XDG_CONFIG_DIRS", EnvValue.str "/a:/b:/a")]⟩
        XdgSysDirs.Config).2 "/a:/b:/a" (by decide) (by decide) (by decide)).trans
      (by decide)⟩

/-- C3: `Xdg::new` uses `HOME` verbatim when it is present with a text value
(no shape validation), otherwise synthesizes `/home/<USER>` when `USER` is
present, and otherwise fails with `HomeNotFound`. -/
theorem xdg_new_home_resolution (env : Env) :
    (∀ h : String, env.lookupVar "HOME" = some (EnvValue.str h) →
      Xdg.new env = Except.ok ⟨h⟩) ∧
    (env.lookupVar "HOME" = none →
      ∀ u : String, env.lookupVar "USER" = some (EnvValue.str u) →
        Xdg.new env = Except.ok ⟨"/home/" ++ u⟩) ∧
    (env.lookupVar "HOME" = none → env.lookupVar "USER" = none →
      Xdg.new env = Except.error XdgError.homeNotFound) := by
  refine ⟨?_, ?_, ?_⟩
  · intro h hh
    simp [Xdg.new, Env.var, hh, Xdg.new_from_string]
  · intro hh u hu
    simp [Xdg.new, Env.var, hh, hu, Xdg.new_from_string]
  · intro hh hu
    simp [Xdg.new, Env.var, hh, hu]

/-- Witness for C3: a relative, unvalidated `HOME` is used verbatim; with
`HOME` unset and `USER` set, `/home/<USER>` is synthesized; with neither set,
construction fails. -/
theorem xdg_new_home_resolution_witness :
    Xdg.new ⟨[("HOME", EnvValue.str "./odd")]⟩ = Except.ok ⟨"./odd"⟩ ∧
    Xdg.new ⟨[("USER", EnvValue.str "bob")]⟩ = Except.ok ⟨"/home/bob"⟩ ∧
    Xdg.new ⟨[]⟩ = Except.error XdgError.homeNotFound :=
  ⟨(xdg_new_home_resolution ⟨[("HOME", EnvValue.str "./odd")]⟩).1 "./odd" (by decide),
    ((xdg_new_home_resolution ⟨[("USER", EnvValue.str "bob")]⟩).2.1 (by decide) "bob"
      (by decide)),
    ((xdg_new_home_resolution ⟨[]⟩).2.2 (by decide) (by decide))⟩

/-- C4: for every directory kind, a set, non-empty, valid-unicode value that
is a relative path makes resolution fail with `RelativePath` carrying exactly
the kind's variable name and the offending value, for every home directory
and regardless of any other variable. -/
theorem get_path_relative_error (xdg : Xdg) (env : Env) (dir : XdgDir) (val : String)
    (hval : env.var dir.env_var = Except.ok val) (hne : val ≠ "")
    (hrel : isRelativePath val = true) :
    Xdg.get_path xdg env dir =
      Except.error (XdgError.relativePath dir.env_var val) := by
  simp [Xdg.get_path, hval, hne, Xdg.validate_path, hrel]

/-- Witness for C4: `XDG_CACHE_HOME=./cache` fails with the matching
`RelativePath` error even though `HOME` is also relative and `USER` unset. -/
theorem get_path_relative_error_witness :
    Env.var ⟨[("XDG_CACHE_HOME", EnvValue.str "./cache")]⟩ XdgDir.Cache.env_var =
        Except.ok "./cache" ∧
    Xdg.get_path ⟨"relative-home"⟩ ⟨[("XDG_CACHE_HOME", EnvValue.str "./cache")]⟩
        XdgDir.Cache =
      Except.error (XdgError.relativePath "XDG_CACHE_HOME" "./cache") :=
  ⟨by decide,
    (get_path_relative_error ⟨"relative-home"⟩ ⟨[("XDG_CACHE_HOME", EnvValue.str "./cache")]⟩
      XdgDir.Cache "./cache" (by decide) (by decide) (by decide)).trans (by decide)⟩

/-- C5: the application variants equal the underlying resolutions with the
bound application name appended: `get_app_dir_path` appends the name to the
single resolved directory and `get_app_sys_dir_paths` appends it to every
entry of the resolved list in order; both propagate the underlying error
unchanged (the `Except.map` preserves the `error` case as-is). -/
theorem app_variants_append_app_name (app : XdgApp) (env : Env) (dir : XdgDir)
    (dirs : XdgSysDirs) :
    XdgApp.get_app_dir_path app env dir =
      (Xdg.get_dir_path app.xdg env dir).map
        (fun path => appendPath path app.name) ∧
    XdgApp.get_app_sys_dir_paths app env dirs =
      (Xdg.get_sys_paths env dirs).map
        (List.map (fun path => appendPath path app.name)) := by
  constructor
  · rfl
  · cases hv : env.var dirs.env_var with
    | ok val =>
      by_cases hne : val = ""
      · subst hne
        simp [XdgApp.get_app_sys_dir_paths, Xdg.get_env_var, Xdg.get_sys_paths, hv,
          Except.map]
      · simp only [XdgApp.get_app_sys_dir_paths, Xdg.get_env_var, Xdg.get_sys_paths, hv,
          Xdg.iter_sys_dir_paths, hne, if_pos, ne_eq, not_false_eq_true, if_true]
        rw [collectExcept_map_map]
    | error e =>
      cases e with
      | notPresent =>
        simp [XdgApp.get_app_sys_dir_paths, Xdg.get_env_var, Xdg.get_sys_paths, hv,
          Except.map]
      | notUnicode bytes =>
        simp [XdgApp.get_app_sys_dir_paths, Xdg.get_env_var, Xdg.get_sys_paths, hv,
          Except.map]

/-- C7: when a system directories variable is set to a non-empty valid-unicode
value, segments are validated left to right: resolution fails with a
`RelativePath` error naming the variable and exactly the first (leftmost)
relative segment, independently of anything after it (the error is determined
by `find?`, which returns the leftmost match). -/
theorem get_sys_paths_first_relative_error (env : Env) (dirs : XdgSysDirs)
    (val s : String)
    (hval : env.var dirs.env_var = Except.ok val) (hne : val ≠ "")
    (hfind : (splitOnChar ':' val).find? (fun seg => isRelativePath seg) = some s) :
    Xdg.get_sys_paths env dirs =
      Except.error (XdgError.relativePath dirs.env_var s) := by
  simp [Xdg.get_sys_paths, hval, hne, collectExcept_map_validate_err _ _ _ hfind]

/-- Witness for C7: in `/a:rel1:rel2` the first relative segment `rel1` is the
one reported, although `rel2` is also relative. -/
theorem get_sys_paths_first_relative_error_witness :
    Env.var ⟨[("XDG_DATA_DIRS", EnvValue.str "/a:rel1:rel2")]⟩ XdgSysDirs.Data.env_var =
        Except.ok "/a:rel1:rel2" ∧
    Xdg.get_sys_paths ⟨[("XDG_DATA_DIRS", EnvValue.str "/a:rel1:rel2")]⟩ XdgSysDirs.Data =
      Except.error (XdgError.relativePath "XDG_DATA_DIRS" "rel1") :=
  ⟨by decide,
    (get_sys_paths_first_relative_error ⟨[("XDG_DATA_DIRS", EnvValue.str "/a:rel1:rel2")]⟩
      XdgSysDirs.Data "/a:rel1:rel2" "rel1" (by decide) (by decide) (by decide)).trans
      (by decide)⟩

/-- C8: the runtime directory has no fallback: unset or empty yields the
`none` outcome, a set non-empty absolute value is returned as-is, a relative
value fails with `RelativePath`, and an invalid-unicode value fails with
`InvalidUnicode`, in each case naming `XDG_RUNTIME_DIR`. -/
theorem runtime_no_fallback (xdg : Xdg) (env : Env) :
    ((env.var "XDG_RUNTIME_DIR" = Except.error VarError.notPresent ∨
        env.var "XDG_RUNTIME_DIR" = Except.ok "") →
      Xdg.runtime xdg env = Except.ok none) ∧
    (∀ v : String, env.var "XDG_RUNTIME_DIR" = Except.ok v → v ≠ "" →
      isRelativePath v = false → Xdg.runtime xdg env = Except.ok (some v)) ∧
    (∀ v : String, env.var "XDG_RUNTIME_DIR" = Except.ok v → v ≠ "" →
      isRelativePath v = true →
      Xdg.runtime xdg env =
        Except.error (XdgError.relativePath "XDG_RUNTIME_DIR" v)) ∧
    (∀ bytes : List Nat,
      env.var "XDG_RUNTIME_DIR" = Except.error (VarError.notUnicode bytes) →
      Xdg.runtime xdg env =
        Except.error (XdgError.invalidUnicode "XDG_RUNTIME_DIR" bytes)) := by
  refine ⟨?_, ?_, ?_, ?_⟩
  · intro h
    rcases h with h | h <;> simp [Xdg.runtime, h]
  · intro v hv hne habs
    simp [Xdg.runtime, hv, hne, Xdg.validate_path, habs, Except.map]
  · intro v hv hne hrel
    simp [Xdg.runtime, hv, hne, Xdg.validate_path, hrel, Except.map]
  · intro bytes hb
    simp [Xdg.runtime, hb]

/-- Witness for C8: unset yields `none`; a set absolute value is returned. -/
theorem runtime_no_fallback_witness :
    Xdg.runtime ⟨"/home/alice"⟩ ⟨[]⟩ = Except.ok none ∧
    Xdg.runtime ⟨"/home/alice"⟩ ⟨[("XDG_RUNTIME_DIR", EnvValue.str "/run/user/1000")]⟩ =
      Except.ok (some "/run/user/1000") :=
  ⟨(runtime_no_fallback ⟨"/home/alice"⟩ ⟨[]⟩).1 (Or.inl (by decide)),
    (runtime_no_fallback ⟨"/home/alice"⟩
      ⟨[("XDG_RUNTIME_DIR", EnvValue.str "/run/user/1000")]⟩).2.1 "/run/user/1000"
      (by decide) (by decide) (by decide)⟩

/-- C9 (implicit): a `HOME` value that is not valid unicode is treated exactly
like an absent `HOME`: construction falls through to `USER` when `USER` has a
text value and fails with `HomeNotFound` when `USER` is unset or also invalid
unicode; `Xdg::new` never returns an `InvalidUnicode` error. -/
theorem xdg_new_nonunicode_home (env : Env) :
    (∀ (bytes : List Nat) (u : String),
      env.lookupVar "HOME" = some (EnvValue.nonUnicode bytes) →
      env.lookupVar "USER" = some (EnvValue.str u) →
      Xdg.new env = Except.ok ⟨"/home/" ++ u⟩) ∧
    (∀ bytes : List Nat,
      env.lookupVar "HOME" = some (EnvValue.nonUnicode bytes) →
      (env.lookupVar "USER" = none ∨
        ∃ bytes2 : List Nat,
          env.lookupVar "USER" = some (EnvValue.nonUnicode bytes2)) →
      Xdg.new env = Except.error XdgError.homeNotFound) ∧
    (∀ (key : String) (bytes : List Nat),
      Xdg.new env ≠ Except.error (XdgError.invalidUnicode key bytes)) := by
  refine ⟨?_, ?_, ?_⟩
  · intro bytes u hh hu
    simp [Xdg.new, Env.var, hh, hu, Xdg.new_from_string]
  · intro bytes hh hu
    rcases hu with hu | ⟨bytes2, hu⟩ <;> simp [Xdg.new, Env.var, hh, hu]
  · intro key bytes
    unfold Xdg.new
    cases hh : env.var "HOME" with
    | ok home => simp
    | error e =>
      cases hu : env.var "USER" with
      | ok user => simp
      | error e2 => simp

/-- Witness for C9: invalid-unicode `HOME` falls back to `USER`; fails with
`HomeNotFound` when `USER` is also invalid unicode; and the result is never an
`InvalidUnicode` error. -/
theorem xdg_new_nonunicode_home_witness :
    Xdg.new ⟨[("HOME", EnvValue.nonUnicode [255]), ("USER", EnvValue.str "bob")]⟩ =
      Except.ok ⟨"/home/bob"⟩ ∧
    Xdg.new ⟨[("HOME", EnvValue.nonUnicode [255]), ("USER", EnvValue.nonUnicode [254])]⟩ =
      Except.error XdgError.homeNotFound ∧
    Xdg.new ⟨[("HOME", EnvValue.nonUnicode [255])]⟩ ≠
      Except.error (XdgError.invalidUnicode "HOME" [255]) :=
  ⟨(xdg_new_nonunicode_home
      ⟨[("HOME", EnvValue.nonUnicode [255]), ("USER", EnvValue.str "bob")]⟩).1 [255] "bob"
      (by decide) (by decide),
    (xdg_new_nonunicode_home
      ⟨[("HOME", EnvValue.nonUnicode [255]), ("USER", EnvValue.nonUnicode [254])]⟩).2.1
      [255] (by decide) (Or.inr ⟨[254], by decide⟩),
    (xdg_new_nonunicode_home ⟨[("HOME", EnvValue.nonUnicode [255])]⟩).2.2 "HOME" [255]⟩

/-- C10 counterexample: with the value `./rel:`(which contains an empty
segment after the trailing colon) resolution does fail, but the `RelativePath`
error carries `./rel`, the leftmost relative segment, not the empty path the
claim states. -/
theorem sys_dirs_empty_segment_counterexample :
    ("" ∈ splitOnChar ':' "./rel:") ∧
    Xdg.get_sys_paths ⟨[("XDG_CONFIG_DIRS", EnvValue.str "./rel:")]⟩ XdgSysDirs.Config ≠
      Except.error (XdgError.relativePath "XDG_CONFIG_DIRS" "") ∧
    Xdg.get_sys_paths ⟨[("XDG_CONFIG_DIRS", EnvValue.str "./rel:")]⟩ XdgSysDirs.Config =
      Except.error (XdgError.relativePath "XDG_CONFIG_DIRS" "./rel") :=
  ⟨by decide, by decide, by decide⟩

/-- C10 (amended): if a system directories variable's non-empty valid-unicode
value contains an empty segment, resolution fails with a `RelativePath` error
for that variable carrying the leftmost relative segment of the split (which
is the empty path whenever no other relative segment precedes it), because
splitting on the colon preserves empty segments and an empty path counts as
relative; empty segments are never silently skipped. -/
theorem sys_dirs_empty_segment_error (env : Env) (dirs : XdgSysDirs) (val : String)
    (hval : env.var dirs.env_var = Except.ok val) (hne : val ≠ "")
    (hmem : "" ∈ splitOnChar ':' val) :
    ∃ s : String,
      (splitOnChar ':' val).find? (fun seg => isRelativePath seg) = some s ∧
      Xdg.get_sys_paths env dirs =
        Except.error (XdgError.relativePath dirs.env_var s) := by
  have hex : ∃ x ∈ splitOnChar ':' val, (fun seg => isRelativePath seg) x = true :=
    ⟨"", hmem, rfl⟩
  obtain ⟨s, hs⟩ :=
    Option.isSome_iff_exists.mp (List.find?_isSome.mpr hex)
  exact ⟨s, hs,
    by simp [Xdg.get_sys_paths, hval, hne, collectExcept_map_validate_err _ _ _ hs]⟩

/-- Witness for C10 (amended): a leading colon makes the empty segment the
leftmost relative one, so the error carries the empty path. -/
theorem sys_dirs_empty_segment_error_witness :
    ("" ∈ splitOnChar ':' ":/a") ∧
    Xdg.get_sys_paths ⟨[("XDG_DATA_DIRS", EnvValue.str ":/a")]⟩ XdgSysDirs.Data =
      Except.error (XdgError.relativePath "XDG_DATA_DIRS" "") := by
  refine ⟨by decide, ?_⟩
  obtain ⟨s, hfind, hres⟩ :=
    sys_dirs_empty_segment_error ⟨[("XDG_DATA_DIRS", EnvValue.str ":/a")]⟩ XdgSysDirs.Data
      ":/a" (by decide) (by decide) (by decide)
  have hs : s = "" := by
    have : (splitOnChar ':' ":/a").find? (fun seg => isRelativePath seg) = some "" := by
      decide
    rw [this] at hfind
    exact (Option.some.inj hfind).symm
  rw [hs] at hres
  simpa [XdgSysDirs.env_var] using hres

/-- C6: whenever the underlying resolutions succeed, `search_app_file`
examines candidates in order: first the user-specific directory for the kind
(app name and file name appended), then each entry of the system-wide
preference list in order (Config and Data only; Cache and State have none),
returning the first candidate that is an existing regular file; in particular
a file present both user-side and system-side yields the user-specific path. -/
theorem search_app_file_order (app : XdgApp) (env : Env) (fs : List PathBuf)
    (dir : XdgDir) (file : String) (base : PathBuf) (sysList : List PathBuf)
    (hbase : Xdg.get_dir_path app.xdg env dir = Except.ok base)
    (hsys : ∀ sd : XdgSysDirs, dir.to_sys = some sd →
      Xdg.get_sys_paths env sd = Except.ok sysList)
    (hnone : dir.to_sys = none → sysList = []) :
    XdgApp.search_app_file app env fs dir file =
      Except.ok
        ((pushPath (pushPath base app.name) file ::
          sysList.map (fun p => pushPath (pushPath p app.name) file)).find?
          (fun p => isFile fs p)) := by
  have husr : XdgApp.search_app_usr_file app env fs dir file =
      Except.ok (if isFile fs (pushPath (pushPath base app.name) file)
        then some (pushPath (pushPath base app.name) file) else none) := by
    simp [XdgApp.search_app_usr_file, hbase, Except.map]
  cases hf : isFile fs (pushPath (pushPath base app.name) file) with
  | true =>
    simp [XdgApp.search_app_file, husr, hf, List.find?_cons]
  | false =>
    cases hts : dir.to_sys with
    | none =>
      have hsl : sysList = [] := hnone hts
      subst hsl
      simp [XdgApp.search_app_file, husr, hf, hts, List.find?_cons]
    | some sd =>
      have hs := hsys sd hts
      have hsysfile : XdgApp.search_app_sys_file app env fs sd file =
          Except.ok
            ((sysList.map (fun p => pushPath (pushPath p app.name) file)).find?
              (fun p => isFile fs p)) := by
        cases hv : env.var sd.env_var with
        | ok val =>
          by_cases hne : val = ""
          · subst hne
            have hfb : sysList = XdgSysDirs.fallback sd := by
              have h2 := hs
              simp [Xdg.get_sys_paths, hv] at h2
              exact h2.symm
            subst hfb
            simp [XdgApp.search_app_sys_file, Xdg.get_env_var, hv, appendPath]
          · have hcol : collectExcept
                ((splitOnChar ':' val).map (Xdg.validate_path sd.env_var)) =
                Except.ok sysList := by
              simpa [Xdg.get_sys_paths, hv, hne] using hs
            obtain ⟨hlist, habs⟩ := collectExcept_map_validate_inv _ _ _ hcol
            subst hlist
            have hscan := searchScan sd.env_var fs
              (fun p => pushPath (pushPath p app.name) file) (splitOnChar ':' val) habs
            simpa [XdgApp.search_app_sys_file, Xdg.get_env_var, hv, hne,
              Xdg.iter_sys_dir_paths, appendPath] using hscan
        | error e =>
          cases e with
          | notPresent =>
            have hfb : sysList = XdgSysDirs.fallback sd := by
              have h2 := hs
              simp [Xdg.get_sys_paths, hv] at h2
              exact h2.symm
            subst hfb
            simp [XdgApp.search_app_sys_file, Xdg.get_env_var, hv, appendPath]
          | notUnicode bytes =>
            exfalso
            simp [Xdg.get_sys_paths, hv] at hs
      cases hfind : (sysList.map (fun p => pushPath (pushPath p app.name) file)).find?
          (fun p => isFile fs p) with
      | none =>
        simp [XdgApp.search_app_file, husr, hf, hts, hsysfile, hfind, List.find?_cons]
      | some q =>
        simp [XdgApp.search_app_file, husr, hf, hts, hsysfile, hfind, List.find?_cons]

/-- Witness for C6: the file exists both in the user config directory and in a
system config directory, and the user-specific path is returned. -/
theorem search_app_file_order_witness :
    Xdg.get_dir_path ⟨"/home/alice"⟩ ⟨[("XDG_CONFIG_DIRS", EnvValue.str "/sysa:/sysb")]⟩
        XdgDir.Config = Except.ok "/home/alice/.config" ∧
    Xdg.get_sys_paths ⟨[("XDG_CONFIG_DIRS", EnvValue.str "/sysa:/sysb")]⟩
        XdgSysDirs.Config = Except.ok ["/sysa", "/sysb"] ∧
    XdgApp.search_app_file ⟨⟨"/home/alice"⟩, "app"⟩
        ⟨[("XDG_CONFIG_DIRS", EnvValue.str "/sysa:/sysb")]⟩
        ["/sysa/app/f", "/home/alice/.config/app/f"] XdgDir.Config "f" =
      Except.ok (some "/home/alice/.config/app/f") :=
  ⟨by decide, by decide,
    (search_app_file_order ⟨⟨"/home/alice"⟩, "app"⟩
      ⟨[("XDG_CONFIG_DIRS", EnvValue.str "/sysa:/sysb")]⟩
      ["/sysa/app/f", "/home/alice/.config/app/f"] XdgDir.Config "f"
      "/home/alice/.config" ["/sysa", "/sysb"] (by decide)
      (fun sd hsd => by cases hsd; decide) (fun hn => by cases hn)).trans (by decide)⟩
